import Mathlib

/-!
Verification of the Daily Task Tick component (src/src/App.js).

The component is a single-page task checklist.  Its behavioural core is a
state machine over an in-memory state (task list, completion list, the add
form's input value, and the inline-edit state) together with a key-value
store holding three entries (task list, completion list, last-completion
date).  The session date is computed once at load and frozen for the
session, so every operation below takes it as an explicit parameter `d`.

Each handler of the component is embedded as a pure function on the state;
external effects (the clock supplying `Date.now()` / `toISOString()`, and
the blocking `window.confirm` prompt) become explicit parameters.
-/

namespace DailyTaskTick

/-- A task record, as in the `Task` interface of App.js (lines 12-17). -/
structure Task where
  id : String
  title : String
  createdAt : String
  archived : Bool
deriving Repr, DecidableEq

/-- A completion record, as in the `CompletionRecord` interface of App.js
(lines 19-22). -/
structure CompletionRecord where
  taskId : String
  date : String
deriving Repr, DecidableEq

/-- The in-memory component state: the five `useState` hooks of
`DailyTaskTick` (App.js lines 25-29). -/
structure AppState where
  tasks : List Task
  completions : List CompletionRecord
  newTaskTitle : String
  editingTaskId : Option String
  editingTaskTitle : String
deriving Repr, DecidableEq

/-- The three localStorage entries (`dailyTaskTick_tasks`,
`dailyTaskTick_completions`, `dailyTaskTick_lastCompletionDate`), each
possibly absent, modelled at the parsed level. -/
structure Storage where
  tasks : Option (List Task)
  completions : Option (List CompletionRecord)
  lastCompletionDate : Option String
deriving Repr, DecidableEq

/-- The initial hook state: empty lists, empty input buffers, no task
being edited (App.js lines 25-29). -/
def initialState : AppState :=
  { tasks := []
    completions := []
    newTaskTitle := ""
    editingTaskId := none
    editingTaskTitle := "" }

/-- Model of JavaScript's `String.prototype.trim()`: strip leading and
trailing whitespace.  Defined by structural recursion over the character
list (rather than through `String.trim`, which is defined by
well-founded recursion) so that concrete instances compute. -/
def jsTrim (s : String) : String :=
  ⟨((s.data.dropWhile Char.isWhitespace).reverse.dropWhile Char.isWhitespace).reverse⟩

/-- `completions.some((c) => c.taskId === taskId && c.date === d)`:
whether a completion record for the pair (taskId, d) is present
(App.js lines 77-79 and 179-181). -/
def isCompleted (completions : List CompletionRecord) (taskId d : String) : Bool :=
  completions.any fun c => c.taskId == taskId && c.date == d

/-- `handleToggleCompletion` (App.js lines 76-91): if a record for
(taskId, today) exists, filter out every such record; otherwise append
one.  `d` is the frozen session date `currentLocalISODate.current`. -/
def handleToggleCompletion (d : String) (taskId : String) (s : AppState) : AppState :=
  if isCompleted s.completions taskId d then
    { s with completions :=
        s.completions.filter fun c => !(c.taskId == taskId && c.date == d) }
  else
    { s with completions := s.completions ++ [{ taskId := taskId, date := d }] }

/-- `handleAddTask` (App.js lines 62-74): a blank trimmed title is a
no-op; otherwise append a task whose id is `Date.now().toString()` and
clear the input.  The clock is passed in as `now` (milliseconds) and
`createdAt` (the ISO timestamp string). -/
def handleAddTask (now : Nat) (createdAt : String) (s : AppState) : AppState :=
  if jsTrim s.newTaskTitle = "" then s
  else
    { s with
      tasks := s.tasks ++
        [{ id := Nat.repr now
           title := jsTrim s.newTaskTitle
           createdAt := createdAt
           archived := false }]
      newTaskTitle := "" }

/-- `handleDeleteTask` (App.js lines 93-98): gated on `window.confirm`;
when confirmed, drop the task with the given id and every completion
record referencing it. -/
def handleDeleteTask (confirmed : Bool) (taskId : String) (s : AppState) : AppState :=
  if confirmed then
    { s with
      tasks := s.tasks.filter fun t => t.id != taskId
      completions := s.completions.filter fun c => c.taskId != taskId }
  else s

/-- `handleEditTask` (App.js lines 100-103): enter edit mode for the
given task, seeding the edit buffer with its current title. -/
def handleEditTask (taskId currentTitle : String) (s : AppState) : AppState :=
  { s with editingTaskId := some taskId, editingTaskTitle := currentTitle }

/-- `handleSaveEdit` (App.js lines 105-114): a blank trimmed buffer is a
no-op; otherwise replace the title of every task whose id matches and
leave edit mode. -/
def handleSaveEdit (taskId : String) (s : AppState) : AppState :=
  if jsTrim s.editingTaskTitle = "" then s
  else
    { s with
      tasks := s.tasks.map fun t =>
        if t.id == taskId then { t with title := jsTrim s.editingTaskTitle } else t
      editingTaskId := none
      editingTaskTitle := "" }

/-- `handleCancelEdit` (App.js lines 116-119): leave edit mode,
discarding the buffer. -/
def handleCancelEdit (s : AppState) : AppState :=
  { s with editingTaskId := none, editingTaskTitle := "" }

/-- `handleResetTodayCompletions` (App.js lines 121-127): gated on
`window.confirm`; when confirmed, drop every completion record whose
date is the session date. -/
def handleResetTodayCompletions (confirmed : Bool) (d : String) (s : AppState) : AppState :=
  if confirmed then
    { s with completions := s.completions.filter fun c => c.date != d }
  else s

/-- `completedTodayCount` (App.js lines 129-131). -/
def completedTodayCount (d : String) (s : AppState) : Nat :=
  (s.completions.filter fun c => c.date == d).length

/-- `totalTasksCount` (App.js line 132). -/
def totalTasksCount (s : AppState) : Nat :=
  s.tasks.length

/-- Result of the initial-load effect: the hydrated in-memory state and
the storage as rewritten by the effect. -/
structure LoadResult where
  state : AppState
  storage : Storage
deriving Repr, DecidableEq

/-- The task list the load effect installs (App.js lines 34-37): the
stored list when present, otherwise the initial empty list. -/
def loadTasks (g : Storage) : List Task :=
  match g.tasks with
  | some ts => ts
  | none => []

/-- The initial-load effect (App.js lines 33-51): restore the stored
task list when present; restore the stored completions only when the
stored last-completion date equals the session date `d` and a stored
completion list exists, otherwise reset them in memory and in storage;
unconditionally persist `d` as the new last-completion date. -/
def loadFromStorage (g : Storage) (d : String) : LoadResult :=
  if g.lastCompletionDate = some d ∧ g.completions.isSome then
    { state := { initialState with tasks := loadTasks g, completions := g.completions.getD [] }
      storage := { g with lastCompletionDate := some d } }
  else
    { state := { initialState with tasks := loadTasks g, completions := [] }
      storage := { g with completions := some [], lastCompletionDate := some d } }

/-- One user interaction with the rendered component, at session date
`d`.  Each constructor corresponds to an event handler wired up in the
JSX: typing in either text input, submitting the add form, clicking a
task row's checkbox (only rendered tasks have one, App.js line 189, so
the toggled id is the id of a task in the list), the delete and edit
icons, saving or cancelling an edit, and the reset-today action. -/
inductive Step (d : String) : AppState → AppState → Prop
  | setNewTaskTitle (s : AppState) (v : String) :
      Step d s { s with newTaskTitle := v }
  | setEditingTaskTitle (s : AppState) (v : String) :
      Step d s { s with editingTaskTitle := v }
  | addTask (s : AppState) (now : Nat) (createdAt : String) :
      Step d s (handleAddTask now createdAt s)
  | toggleCompletion (s : AppState) (t : Task) (ht : t ∈ s.tasks) :
      Step d s (handleToggleCompletion d t.id s)
  | deleteTask (s : AppState) (confirmed : Bool) (taskId : String) :
      Step d s (handleDeleteTask confirmed taskId s)
  | beginEdit (s : AppState) (taskId currentTitle : String) :
      Step d s (handleEditTask taskId currentTitle s)
  | saveEdit (s : AppState) (taskId : String) :
      Step d s (handleSaveEdit taskId s)
  | cancelEdit (s : AppState) :
      Step d s (handleCancelEdit s)
  | resetToday (s : AppState) (confirmed : Bool) :
      Step d s (handleResetTodayCompletions confirmed d s)

/-- States reachable from `s0` by user interactions at session date `d`. -/
inductive ReachableFrom (d : String) (s0 : AppState) : AppState → Prop
  | refl : ReachableFrom d s0 s0
  | step {s s' : AppState} :
      ReachableFrom d s0 s → Step d s s' → ReachableFrom d s0 s'

/-- At most one completion record per (taskId, date) pair. -/
def UniqueKeys (l : List CompletionRecord) : Prop :=
  (l.map fun c => (c.taskId, c.date)).Nodup

/-- Every completion record references a task present in the list. -/
def RefsExist (s : AppState) : Prop :=
  ∀ c ∈ s.completions, ∃ t ∈ s.tasks, t.id = c.taskId

lemma isCompleted_filter_not_key (l : List CompletionRecord) (taskId d : String) :
    isCompleted (l.filter fun c => !(c.taskId == taskId && c.date == d)) taskId d = false := by
  rw [isCompleted, List.any_eq_false]
  intro c hc
  have h := (List.mem_filter.mp hc).2
  simp only [Bool.not_eq_true'] at h
  simp [h]

lemma isCompleted_append_key (l : List CompletionRecord) (taskId d : String) :
    isCompleted (l ++ [{ taskId := taskId, date := d }]) taskId d = true := by
  simp [isCompleted]

lemma toggle_completions (d taskId : String) (s : AppState) :
    (handleToggleCompletion d taskId s).completions =
      if isCompleted s.completions taskId d then
        s.completions.filter fun c => !(c.taskId == taskId && c.date == d)
      else s.completions ++ [{ taskId := taskId, date := d }] := by
  rw [handleToggleCompletion]
  split <;> rfl

/-- Claim C5: toggling completion twice for the same task id and the same
session date restores that task's completed-today status. -/
theorem toggle_involution (d taskId : String) (s : AppState) :
    isCompleted (handleToggleCompletion d taskId (handleToggleCompletion d taskId s)).completions
        taskId d
      = isCompleted s.completions taskId d := by
  cases hb : isCompleted s.completions taskId d with
  | true =>
    have h1 : (handleToggleCompletion d taskId s).completions
        = s.completions.filter fun c => !(c.taskId == taskId && c.date == d) := by
      rw [toggle_completions, if_pos hb]
    have h2 : isCompleted (handleToggleCompletion d taskId s).completions taskId d = false := by
      rw [h1]
      exact isCompleted_filter_not_key _ _ _
    have h3 : (handleToggleCompletion d taskId (handleToggleCompletion d taskId s)).completions
        = (handleToggleCompletion d taskId s).completions ++
            [{ taskId := taskId, date := d }] := by
      rw [toggle_completions, if_neg (by simp [h2])]
    rw [h3, isCompleted_append_key]
  | false =>
    have h1 : (handleToggleCompletion d taskId s).completions
        = s.completions ++ [{ taskId := taskId, date := d }] := by
      rw [toggle_completions, if_neg (by simp [hb])]
    have h2 : isCompleted (handleToggleCompletion d taskId s).completions taskId d = true := by
      rw [h1]
      exact isCompleted_append_key _ _ _
    have h3 : (handleToggleCompletion d taskId (handleToggleCompletion d taskId s)).completions
        = (handleToggleCompletion d taskId s).completions.filter
            fun c => !(c.taskId == taskId && c.date == d) := by
      rw [toggle_completions, if_pos h2]
    rw [h3, isCompleted_filter_not_key]

/-- Claim C10: toggling completion changes only the completion list; the
task list, the add-form input, and the editing state are untouched, for
every task id and every state. -/
theorem toggle_frame (d taskId : String) (s : AppState) :
    (handleToggleCompletion d taskId s).tasks = s.tasks ∧
    (handleToggleCompletion d taskId s).newTaskTitle = s.newTaskTitle ∧
    (handleToggleCompletion d taskId s).editingTaskId = s.editingTaskId ∧
    (handleToggleCompletion d taskId s).editingTaskTitle = s.editingTaskTitle := by
  unfold handleToggleCompletion
  cases hb : isCompleted s.completions taskId d <;> simp

/-- Claim C1: on load, when the stored last-completion date equals the
session date and a stored completion list exists, the in-memory list is
the stored list unchanged (and the stored entry is untouched); otherwise
the in-memory list is empty and an empty list is persisted; in both
cases the session date is persisted as the new last-completion date. -/
theorem load_day_rollover (g : Storage) (d : String) :
    (∀ cs, g.lastCompletionDate = some d → g.completions = some cs →
        (loadFromStorage g d).state.completions = cs ∧
        (loadFromStorage g d).storage.completions = some cs) ∧
    (¬(g.lastCompletionDate = some d ∧ g.completions.isSome) →
        (loadFromStorage g d).state.completions = [] ∧
        (loadFromStorage g d).storage.completions = some []) ∧
    (loadFromStorage g d).storage.lastCompletionDate = some d := by
  refine ⟨?_, ?_, ?_⟩
  · intro cs h1 h2
    unfold loadFromStorage
    rw [if_pos ⟨h1, by rw [h2]; rfl⟩]
    refine ⟨?_, h2⟩
    show g.completions.getD [] = cs
    rw [h2]
    rfl
  · intro h
    unfold loadFromStorage
    rw [if_neg h]
    exact ⟨rfl, rfl⟩
  · unfold loadFromStorage
    split <;> rfl

/-- Witness for C1 at a concrete storage and date. -/
theorem load_day_rollover_witness :
    (loadFromStorage
        { tasks := none
          completions := some [{ taskId := "7", date := "2024-03-05" }]
          lastCompletionDate := some "2024-03-05" }
        "2024-03-05").state.completions
      = [{ taskId := "7", date := "2024-03-05" }] :=
  ((load_day_rollover _ "2024-03-05").1 _ rfl rfl).1

/-- Claim C7: a blank (whitespace-only) trimmed input makes both
`handleAddTask` and `handleSaveEdit` leave the whole state unchanged. -/
theorem blank_input_noop (now : Nat) (createdAt taskId : String) (s s2 : AppState)
    (h1 : jsTrim s.newTaskTitle = "") (h2 : jsTrim s2.editingTaskTitle = "") :
    handleAddTask now createdAt s = s ∧ handleSaveEdit taskId s2 = s2 := by
  constructor
  · unfold handleAddTask
    rw [if_pos h1]
  · unfold handleSaveEdit
    rw [if_pos h2]

/-- Witness for C7 at a whitespace-only add input and edit buffer. -/
theorem blank_input_noop_witness :
    handleAddTask 5 "2024-06-01T00:00:00.000Z"
        { initialState with newTaskTitle := "   " }
      = { initialState with newTaskTitle := "   " } ∧
    handleSaveEdit "1" { initialState with editingTaskTitle := " " }
      = { initialState with editingTaskTitle := " " } :=
  blank_input_noop 5 "2024-06-01T00:00:00.000Z" "1" _ _ (by decide) (by decide)

/-- Claim C8: deletion is confirmation-gated.  When confirmed, exactly
the tasks with the given id leave the task list and exactly the
completion records referencing it leave the completion list; when
declined, the state is unchanged. -/
theorem delete_confirmation_gated (taskId : String) (s : AppState) :
    (∀ t, t ∈ (handleDeleteTask true taskId s).tasks ↔ t ∈ s.tasks ∧ t.id ≠ taskId) ∧
    (∀ c, c ∈ (handleDeleteTask true taskId s).completions ↔
        c ∈ s.completions ∧ c.taskId ≠ taskId) ∧
    handleDeleteTask false taskId s = s := by
  refine ⟨?_, ?_, rfl⟩
  · intro t
    show t ∈ s.tasks.filter (fun t => t.id != taskId) ↔ _
    simp [List.mem_filter]
  · intro c
    show c ∈ s.completions.filter (fun c => c.taskId != taskId) ↔ _
    simp [List.mem_filter]

/-- Claim C6: with a non-blank trimmed title, and a fresh id (no
completion record for `(Date.now().toString(), session date)` is
present, as the fresh-unique-id contract guarantees), `handleAddTask`
grows the task count by exactly one, appends the new task — trimmed
title, `archived = false` — at the end of the list, and leaves the new
task not completed today. -/
theorem addTask_spec (now : Nat) (createdAt d : String) (s : AppState)
    (h1 : jsTrim s.newTaskTitle ≠ "")
    (h2 : isCompleted s.completions (Nat.repr now) d = false) :
    totalTasksCount (handleAddTask now createdAt s) = totalTasksCount s + 1 ∧
    (handleAddTask now createdAt s).tasks =
      s.tasks ++ [{ id := Nat.repr now, title := jsTrim s.newTaskTitle,
                    createdAt := createdAt, archived := false }] ∧
    isCompleted (handleAddTask now createdAt s).completions (Nat.repr now) d = false := by
  have he : handleAddTask now createdAt s =
      { s with
        tasks := s.tasks ++ [{ id := Nat.repr now, title := jsTrim s.newTaskTitle,
                               createdAt := createdAt, archived := false }]
        newTaskTitle := "" } := by
    unfold handleAddTask
    rw [if_neg h1]
  rw [he]
  refine ⟨?_, rfl, h2⟩
  simp [totalTasksCount]

/-- Witness for C6 at a concrete state with title " Run ". -/
theorem addTask_spec_witness :
    totalTasksCount (handleAddTask 42 "2024-06-01T08:00:00.000Z"
        { initialState with newTaskTitle := " Run " })
      = totalTasksCount { initialState with newTaskTitle := " Run " } + 1 :=
  (addTask_spec 42 "2024-06-01T08:00:00.000Z" "2024-06-01" _
    (by decide) (by decide)).1

lemma zip_map_self {α β : Type} (f : α → β) (l : List α) :
    (l.map f).zip l = l.map fun a => (f a, a) := by
  induction l with
  | nil => rfl
  | cons x xs ih => simp [ih]

/-- Claim C9: committing an edit with a non-blank buffer only retitles
the tasks bearing the edited id: positionally, every task keeps its id,
createdAt and archived fields, tasks with a different id are unchanged,
the list's length (hence order) is preserved, and the completion list is
untouched. -/
theorem saveEdit_title_only (taskId : String) (s : AppState)
    (h : jsTrim s.editingTaskTitle ≠ "") :
    (handleSaveEdit taskId s).tasks.length = s.tasks.length ∧
    (handleSaveEdit taskId s).completions = s.completions ∧
    ∀ p ∈ (handleSaveEdit taskId s).tasks.zip s.tasks,
      p.1.id = p.2.id ∧ p.1.createdAt = p.2.createdAt ∧ p.1.archived = p.2.archived ∧
      (p.2.id = taskId → p.1.title = jsTrim s.editingTaskTitle) ∧
      (p.2.id ≠ taskId → p.1 = p.2) := by
  have he : handleSaveEdit taskId s =
      { s with
        tasks := s.tasks.map fun t =>
          if t.id == taskId then { t with title := jsTrim s.editingTaskTitle } else t
        editingTaskId := none
        editingTaskTitle := "" } := by
    unfold handleSaveEdit
    rw [if_neg h]
  rw [he]
  refine ⟨by simp, rfl, ?_⟩
  intro p hp
  have hp2 : p ∈ (s.tasks.map fun t =>
      if t.id == taskId then { t with title := jsTrim s.editingTaskTitle } else t).zip
        s.tasks := hp
  rw [zip_map_self] at hp2
  obtain ⟨t, ht, rfl⟩ := List.mem_map.mp hp2
  by_cases hid : t.id = taskId
  · rw [if_pos (by simp [hid])]
    exact ⟨rfl, rfl, rfl, fun _ => rfl, fun h2 => absurd hid h2⟩
  · rw [if_neg (by simp [hid])]
    exact ⟨rfl, rfl, rfl, fun h2 => absurd h2 hid, fun _ => rfl⟩

/-- Witness for C9 at a concrete one-task state with buffer " New ". -/
theorem saveEdit_title_only_witness :
    (handleSaveEdit "1"
        { tasks := [{ id := "1", title := "Old", createdAt := "t0", archived := false }]
          completions := [{ taskId := "1", date := "2024-06-01" }]
          newTaskTitle := ""
          editingTaskId := some "1"
          editingTaskTitle := " New " }).completions
      = [{ taskId := "1", date := "2024-06-01" }] :=
  (saveEdit_title_only "1" _ (by decide)).2.1

lemma toggle_tasks (d taskId : String) (s : AppState) :
    (handleToggleCompletion d taskId s).tasks = s.tasks := by
  unfold handleToggleCompletion
  split <;> rfl

lemma uniqueKeys_filter (p : CompletionRecord → Bool) {l : List CompletionRecord}
    (h : UniqueKeys l) : UniqueKeys (l.filter p) :=
  List.Nodup.sublist ((l.filter_sublist).map fun c => (c.taskId, c.date)) h

lemma uniqueKeys_toggle (d taskId : String) (s : AppState)
    (h : UniqueKeys s.completions) :
    UniqueKeys (handleToggleCompletion d taskId s).completions := by
  rw [toggle_completions]
  by_cases hb : isCompleted s.completions taskId d = true
  · rw [if_pos hb]
    exact uniqueKeys_filter _ h
  · rw [if_neg hb]
    unfold UniqueKeys
    rw [List.map_append]
    have hmem : ((taskId, d) ∉ s.completions.map fun c => (c.taskId, c.date)) := by
      intro hm
      obtain ⟨c, hc, hpair⟩ := List.mem_map.mp hm
      have h1 : c.taskId = taskId := congrArg Prod.fst hpair
      have h2 : c.date = d := congrArg Prod.snd hpair
      have hcomp : isCompleted s.completions taskId d = true :=
        List.any_eq_true.mpr ⟨c, hc, by simp [h1, h2]⟩
      exact hb hcomp
    refine List.Nodup.append h (List.nodup_singleton _) ?_
    intro x hx hx2
    rw [List.map_singleton, List.mem_singleton] at hx2
    subst hx2
    exact hmem hx

lemma uniqueKeys_step {d : String} {s s' : AppState} (hs : Step d s s')
    (h : UniqueKeys s.completions) : UniqueKeys s'.completions := by
  cases hs with
  | setNewTaskTitle v => exact h
  | setEditingTaskTitle v => exact h
  | addTask now createdAt =>
    unfold handleAddTask
    split <;> exact h
  | toggleCompletion t ht => exact uniqueKeys_toggle d t.id s h
  | deleteTask confirmed taskId =>
    unfold handleDeleteTask
    split
    · exact uniqueKeys_filter _ h
    · exact h
  | beginEdit taskId currentTitle => exact h
  | saveEdit taskId =>
    unfold handleSaveEdit
    split <;> exact h
  | cancelEdit => exact h
  | resetToday confirmed =>
    unfold handleResetTodayCompletions
    split
    · exact uniqueKeys_filter _ h
    · exact h

lemma uniqueKeys_load (g : Storage) (d : String)
    (hg : ∀ cs, g.completions = some cs → UniqueKeys cs) :
    UniqueKeys (loadFromStorage g d).state.completions := by
  unfold loadFromStorage
  by_cases hc : g.lastCompletionDate = some d ∧ g.completions.isSome
  · rw [if_pos hc]
    obtain ⟨cs, hcs⟩ := Option.isSome_iff_exists.mp hc.2
    show UniqueKeys (g.completions.getD [])
    rw [hcs]
    exact hg cs hcs
  · rw [if_neg hc]
    exact List.nodup_nil

/-- Claim C2: in every state reachable from a load whose stored
completion list (when present) already satisfied the invariant, the
completion list holds at most one record per (taskId, date) pair; every
user operation, and the load path itself, preserves this. -/
theorem reachable_unique_completion_keys (d : String) (g : Storage) (s : AppState)
    (hg : ∀ cs, g.completions = some cs → UniqueKeys cs)
    (hr : ReachableFrom d (loadFromStorage g d).state s) :
    UniqueKeys s.completions := by
  induction hr with
  | refl => exact uniqueKeys_load g d hg
  | step hr hs ih => exact uniqueKeys_step hs ih

/-- Witness for C2: a same-day load of one stored completion, followed
by a toggle of the listed task. -/
theorem reachable_unique_completion_keys_witness :
    UniqueKeys (handleToggleCompletion "2024-06-01" "1"
        (loadFromStorage
          { tasks := some [{ id := "1", title := "Workout", createdAt := "t0", archived := false }]
            completions := some [{ taskId := "1", date := "2024-06-01" }]
            lastCompletionDate := some "2024-06-01" }
          "2024-06-01").state).completions :=
  reachable_unique_completion_keys "2024-06-01" _ _
    (fun cs hcs => by cases hcs; exact List.nodup_singleton _)
    (ReachableFrom.step ReachableFrom.refl
      (Step.toggleCompletion _
        { id := "1", title := "Workout", createdAt := "t0", archived := false }
        (List.mem_singleton.mpr rfl)))

lemma refsExist_toggle (d : String) (s : AppState) (t : Task) (ht : t ∈ s.tasks)
    (h : RefsExist s) : RefsExist (handleToggleCompletion d t.id s) := by
  intro c hc
  rw [toggle_tasks]
  rw [toggle_completions] at hc
  cases hb : isCompleted s.completions t.id d with
  | true =>
    rw [if_pos hb] at hc
    exact h c (List.mem_of_mem_filter hc)
  | false =>
    rw [if_neg (by simp [hb])] at hc
    rcases List.mem_append.mp hc with hold | hnew
    · exact h c hold
    · rw [List.mem_singleton] at hnew
      subst hnew
      exact ⟨t, ht, rfl⟩

lemma refsExist_step {d : String} {s s' : AppState} (hs : Step d s s')
    (h : RefsExist s) : RefsExist s' := by
  cases hs with
  | setNewTaskTitle v => exact h
  | setEditingTaskTitle v => exact h
  | addTask now createdAt =>
    by_cases hb : jsTrim s.newTaskTitle = ""
    · unfold handleAddTask
      rw [if_pos hb]
      exact h
    · unfold handleAddTask
      rw [if_neg hb]
      intro c hc
      obtain ⟨t, ht, hid⟩ := h c hc
      exact ⟨t, List.mem_append_left _ ht, hid⟩
  | toggleCompletion t ht => exact refsExist_toggle d s t ht h
  | deleteTask confirmed taskId =>
    cases confirmed with
    | false => exact h
    | true =>
      intro c hc
      have hc2 : c ∈ s.completions.filter (fun c => c.taskId != taskId) := hc
      obtain ⟨hcm, hne⟩ := List.mem_filter.mp hc2
      obtain ⟨t, ht, hid⟩ := h c hcm
      refine ⟨t, ?_, hid⟩
      show t ∈ s.tasks.filter (fun t => t.id != taskId)
      rw [List.mem_filter]
      refine ⟨ht, ?_⟩
      rw [hid]
      exact hne
  | beginEdit taskId currentTitle => exact h
  | saveEdit taskId =>
    by_cases hb : jsTrim s.editingTaskTitle = ""
    · unfold handleSaveEdit
      rw [if_pos hb]
      exact h
    · unfold handleSaveEdit
      rw [if_neg hb]
      intro c hc
      obtain ⟨t, ht, hid⟩ := h c hc
      refine ⟨if t.id == taskId then { t with title := jsTrim s.editingTaskTitle } else t,
        List.mem_map.mpr ⟨t, ht, rfl⟩, ?_⟩
      by_cases hidt : t.id = taskId
      · rw [if_pos (by simp [hidt])]
        exact hid
      · rw [if_neg (by simp [hidt])]
        exact hid
  | cancelEdit => exact h
  | resetToday confirmed =>
    cases confirmed with
    | false => exact h
    | true =>
      intro c hc
      have hc2 : c ∈ s.completions.filter (fun c => c.date != d) := hc
      exact h c (List.mem_of_mem_filter hc2)

lemma refsExist_load (g : Storage) (d : String)
    (hg : g.lastCompletionDate = some d → ∀ cs, g.completions = some cs →
        ∀ c ∈ cs, ∃ t ∈ loadTasks g, t.id = c.taskId) :
    RefsExist (loadFromStorage g d).state := by
  unfold loadFromStorage
  by_cases hc : g.lastCompletionDate = some d ∧ g.completions.isSome
  · rw [if_pos hc]
    obtain ⟨cs, hcs⟩ := Option.isSome_iff_exists.mp hc.2
    intro c hmem
    have hmem2 : c ∈ g.completions.getD [] := hmem
    rw [hcs] at hmem2
    exact hg hc.1 cs hcs c hmem2
  · rw [if_neg hc]
    intro c hmem
    exact absurd hmem (List.not_mem_nil c)

/-- Claim C3: in every state reachable from a load whose restored
completions (when restored) reference stored tasks, every completion
record references a task present in the list; and a confirmed delete
leaves no record bearing the deleted id. -/
theorem reachable_completions_reference_tasks (d : String) (g : Storage) (s : AppState)
    (hg : g.lastCompletionDate = some d → ∀ cs, g.completions = some cs →
        ∀ c ∈ cs, ∃ t ∈ loadTasks g, t.id = c.taskId)
    (hr : ReachableFrom d (loadFromStorage g d).state s) :
    RefsExist s ∧
    ∀ taskId c, c ∈ (handleDeleteTask true taskId s).completions → c.taskId ≠ taskId := by
  constructor
  · induction hr with
    | refl => exact refsExist_load g d hg
    | step hr hs ih => exact refsExist_step hs ih
  · intro taskId c hc
    have hc2 : c ∈ s.completions.filter (fun c => c.taskId != taskId) := hc
    have hne := (List.mem_filter.mp hc2).2
    simpa using hne

/-- Witness for C3: a same-day load of one stored completion that
references the stored task. -/
theorem reachable_completions_reference_tasks_witness :
    RefsExist (loadFromStorage
        { tasks := some [{ id := "9", title := "Read", createdAt := "t0", archived := false }]
          completions := some [{ taskId := "9", date := "2024-07-04" }]
          lastCompletionDate := some "2024-07-04" }
        "2024-07-04").state :=
  (reachable_completions_reference_tasks "2024-07-04" _ _
    (by
      intro h1 cs hcs c hc
      cases hcs
      rw [List.mem_singleton] at hc
      subst hc
      exact ⟨{ id := "9", title := "Read", createdAt := "t0", archived := false },
        List.mem_singleton.mpr rfl, rfl⟩)
    ReachableFrom.refl).1

/-- Claim C4 fails on the code: `Date.now().toString()` is not fresh
when two tasks are added within the same millisecond.  Starting from the
empty state, adding "A" and then "B" with `Date.now()` returning
1700000000000 both times yields two tasks with the same id. -/
theorem addTask_duplicate_id_same_millisecond :
    ((handleAddTask 1700000000000 "2023-11-14T22:13:20.000Z"
        { (handleAddTask 1700000000000 "2023-11-14T22:13:20.000Z"
            { initialState with newTaskTitle := "A" }) with
          newTaskTitle := "B" }).tasks.map Task.id
      = ["1700000000000", "1700000000000"]) ∧
    ¬ ((handleAddTask 1700000000000 "2023-11-14T22:13:20.000Z"
        { (handleAddTask 1700000000000 "2023-11-14T22:13:20.000Z"
            { initialState with newTaskTitle := "A" }) with
          newTaskTitle := "B" }).tasks.map Task.id).Nodup := by
  decide

end DailyTaskTick
